import Mathlib

/-!
Verification of the resumable, retrying, concurrency-bounded transfer engine of
the telegram-channel-downloader repository.

The definitions below are a shallow embedding of the JavaScript source:

* `src/modules/resumable-download.js` — the chunked resumable transfer
  (`resumableDownload`, `extractFileInfo`, the corruption guard and the
  partial-file bookkeeping);
* `src/modules/messages.js` (in `src/unnamed/part_002`) — the retry/backoff
  wrapper `downloadMessageMedia` with `MAX_RETRIES` and `RETRY_DELAYS`;
* `src/scripts/download-channel.js` — the batch loop of
  `DownloadChannel.downloadChannel` that advances the persisted cursor;
* `src/utils/progress.js` (in `src/unnamed/part_000`) — `ProgressManager`;
* `src/utils/file-helper.js` — `getLastSelection` / `updateLastSelection`.

File bytes are modelled as `List Nat`, JavaScript exceptions as `Except`,
JavaScript `null`/`undefined` fields as `Option`, and the on-disk partial file
as the list of bytes flushed to it so far.
-/

namespace TCD

/-! ## Batching (`downloadableMessages.slice(i, i + MAX_PARALLEL_DOWNLOAD)` and
the `iterDownload` chunking).

`chunkList C l` splits `l` into consecutive runs of `C` elements, exactly like
the `for (let i = 0; i < xs.length; i += C) xs.slice(i, i + C)` loop of the
scheduler and like the chunk stream of `iterDownload` with request size `C`.
The auxiliary fuel argument only makes the recursion structural; it is always
called with `fuel = l.length`, which suffices whenever `C > 0`. -/

def chunkListAux (C : Nat) : Nat → List α → List (List α)
  | _, [] => []
  | 0, _ :: _ => []
  | fuel + 1, a :: l => ((a :: l).take C) :: chunkListAux C fuel ((a :: l).drop C)

def chunkList (C : Nat) (l : List α) : List (List α) :=
  chunkListAux C l.length l

/-- `MAX_PARALLEL_DOWNLOAD = 3` from `download-channel.js`. -/
def MAX_PARALLEL_DOWNLOAD : Nat := 3

/-! ## Chunked resumable transfer (`resumableDownload`).

`resumeSetup` models lines 129–141 of `resumable-download.js`: given the
(possibly unknown) total size and the current length of the partial file, it
returns the resume offset together with a flag telling whether the partial
file was discarded by the corruption guard
(`if (fileSize && existingSize >= fileSize.toJSNumber()) { fs.unlinkSync(...);
existingSize = 0; offset = bigInt.zero; }`).  `fileSize` is `null` or a
big-integer object in the source, so its truthiness coincides with presence. -/

def resumeSetup (fileSize : Option Nat) (existingSize : Nat) : Nat × Bool :=
  match fileSize with
  | some total => if existingSize ≥ total then (0, true) else (existingSize, false)
  | none => (existingSize, false)

/-- The `for await (const chunk of downloadIter)` loop of `resumableDownload`
(lines 180–214).  A stream item `some c` is a chunk delivered by the remote
iterator and written (and acknowledged) before the loop continues; `none` is a
transport error raised by the iterator or by the write callback.  On normal
exhaustion the partial file is renamed to the destination (`Except.ok` carries
the final file's bytes); on an error the partial file is left exactly as last
flushed and the error propagates (`Except.error` carries the partial file's
bytes at that moment). -/
def transferLoop (partBytes : List Nat) : List (Option (List Nat)) → Except (List Nat) (List Nat)
  | [] => Except.ok partBytes
  | some c :: rest => transferLoop (partBytes ++ c) rest
  | none :: _ => Except.error partBytes

/-- `resumableDownload` on a run in which the remote iterator delivers the
object's bytes from the resume offset in `C`-sized chunks without transport
error: the resume offset is computed from the partial file (with the
corruption guard of `resumeSetup`), the stream starts at that offset
(`iterDownload` with `offset`), and the chunks are appended to the partial
file (append mode when resuming, truncate-create otherwise). -/
def resumableDownload (fileBytes : List Nat) (fileSize : Option Nat)
    (partBytes : List Nat) (C : Nat) : Except (List Nat) (List Nat) :=
  let setup := resumeSetup fileSize partBytes.length
  let existing := if setup.2 then [] else partBytes
  transferLoop existing ((chunkList C (fileBytes.drop existing.length)).map Option.some)

/-! ## Retry/backoff policy (`downloadMessageMedia` in `src/unnamed/part_002`).

A caught JavaScript error is reduced by the source to three observations:
`err.errorMessage || err.message || ""`, `err.code || 0` and `err.seconds`
(the flood-wait hint, a JavaScript number, absent on other errors). -/

structure TgError where
  errorMessage : String
  code : Int
  seconds : Option Nat
deriving DecidableEq

/-- `MAX_RETRIES = 5` from `src/unnamed/part_002`. -/
def MAX_RETRIES : Nat := 5

/-- `RETRY_DELAYS = [5, 15, 30, 60, 120]` (seconds) from `src/unnamed/part_002`. -/
def RETRY_DELAYS : List Nat := [5, 15, 30, 60, 120]

/-- `pat.toList` matches at the head of the character list. -/
def matchHead : List Char → List Char → Bool
  | [], _ => true
  | _ :: _, [] => false
  | p :: ps, c :: cs => p == c && matchHead ps cs

/-- Contiguous-substring search on character lists. -/
def findSub (pat : List Char) : List Char → Bool
  | [] => matchHead pat []
  | c :: cs => matchHead pat (c :: cs) || findSub pat cs

/-- JavaScript `s.includes(pat)`. -/
def strIncludes (s pat : String) : Bool :=
  findSub pat.toList s.toList

/-- The retry classification of `downloadMessageMedia`:

    errorCode === -503 || errorCode === 420 ||
    errorMessage.includes("Timeout") || errorMessage.includes("FLOOD") ||
    errorMessage.includes("timeout") || (errorCode >= 500 && errorCode < 600)
-/
def isRetryable (e : TgError) : Bool :=
  e.code == -503 || e.code == 420 ||
  strIncludes e.errorMessage "Timeout" ||
  strIncludes e.errorMessage "FLOOD" ||
  strIncludes e.errorMessage "timeout" ||
  (e.code ≥ 500 && e.code < 600)

/-- The wait computed before a retry at attempt index `retryCount`:

    let waitTime = RETRY_DELAYS[retryCount];
    if (err.seconds) { waitTime = err.seconds + 1; }

`err.seconds` is a JavaScript number, so a present hint of `0` is falsy and
the schedule delay is used. -/
def computeWaitTime (e : TgError) (retryCount : Nat) : Nat :=
  match e.seconds with
  | some s => if s != 0 then s + 1 else RETRY_DELAYS.getD retryCount 0
  | none => RETRY_DELAYS.getD retryCount 0

/-- The retry recursion of `downloadMessageMedia`, viewed as the sequence of
attempts on one job.  `errs i` is the outcome of the transfer started with
`retryCount = i`: `none` when it resolves, `some e` when it throws `e`.  The
result is the final boolean of the job together with the list of waits
performed between attempts.  The first (fuel) argument only makes the
recursion structural; via `runAttemptsFrom` it is `MAX_RETRIES - retryCount`,
so the fuel-exhausted first equation is reached exactly when
`retryCount ≥ MAX_RETRIES`, where the source's guard
`retryCount < MAX_RETRIES` fails and the job is surfaced as failed. -/
def runAttemptsAux (errs : Nat → Option TgError) : Nat → Nat → Bool × List Nat
  | 0, rc =>
    match errs rc with
    | none => (true, [])
    | some _ => (false, [])
  | gas + 1, rc =>
    match errs rc with
    | none => (true, [])
    | some e =>
      if isRetryable e && decide (rc < MAX_RETRIES) then
        let r := runAttemptsAux errs gas (rc + 1)
        (r.1, computeWaitTime e rc :: r.2)
      else (false, [])

/-- The attempt sequence of one job starting at attempt index `retryCount`
(the source starts jobs with `retryCount = 0`). -/
def runAttemptsFrom (errs : Nat → Option TgError) (retryCount : Nat) : Bool × List Nat :=
  runAttemptsAux errs (MAX_RETRIES - retryCount) retryCount

/-! ## Bounded concurrency scheduler (`DownloadChannel.downloadChannel`,
`src/scripts/download-channel.js`, lines 174–205).

One enumeration page yields the ids of the downloadable messages (newest
first, so the oldest message of a batch is its last element).  The loop walks
the `MAX_PARALLEL_DOWNLOAD`-sized batches; after `Promise.all` it checks
`results.every(success)`.  If all succeeded it merges
`{ messageOffsetId: batch[batch.length - 1].id }` into the persisted
selection; otherwise it stops and returns without touching the cursor.
`runBatches` abstracts the per-job outcome as `succ : Nat → Bool` and returns
the persisted cursor after the page together with the number of batches that
were submitted. -/

def runBatches (succ : Nat → Bool) (cursor : Option Nat) : List (List Nat) → Option Nat × Nat
  | [] => (cursor, 0)
  | b :: bs =>
    if b.all succ then
      let r := runBatches succ (some (b.getLastD 0)) bs
      (r.1, r.2 + 1)
    else
      (cursor, 1)

/-- One enumeration page of `downloadChannel`: batch the downloadable ids in
windows of `MAX_PARALLEL_DOWNLOAD` and run the cursor-advancing loop. -/
def downloadChannelPage (succ : Nat → Bool) (jobs : List Nat) (cursor : Option Nat) :
    Option Nat × Nat :=
  runBatches succ cursor (chunkList MAX_PARALLEL_DOWNLOAD jobs)

/-! ## Sampled activity trace of the scheduler.

Within a batch, `batch.map(msg => downloadMessageMedia(...))` starts every
transfer of the batch before `Promise.all` suspends, and the next batch is not
started until all of them finished.  `windowTrace` is the event trace of one
batch (all starts, then all finishes; `netActive` only counts events, so any
completion order yields the same active counts), and `schedTrace` is the trace
of a whole page in which every job succeeds. -/

inductive Ev where
  | start (id : Nat)
  | finish (id : Nat)
deriving DecidableEq

def isStartEv : Ev → Bool
  | .start _ => true
  | .finish _ => false

def isFinishEv : Ev → Bool
  | .start _ => false
  | .finish _ => true

def windowTrace (batch : List Nat) : List Ev :=
  batch.map Ev.start ++ batch.map Ev.finish

def schedTrace (jobs : List Nat) : List Ev :=
  ((chunkList MAX_PARALLEL_DOWNLOAD jobs).map windowTrace).flatten

/-- Number of jobs in the `Active` state after a trace: started and not yet
finished. -/
def netActive (tr : List Ev) : Nat :=
  tr.countP isStartEv - tr.countP isFinishEv

/-- The largest number of simultaneously `Active` jobs observed at any sampled
instant of a trace (maximum of `netActive` over all prefixes). -/
def peakActive (tr : List Ev) : Nat :=
  ((List.range (tr.length + 1)).map (fun k => netActive (tr.take k))).foldr Nat.max 0

/-! ## The job-level download operation (`downloadMessageMedia`,
`src/unnamed/part_002`, lines 35–131), with its exception behaviour made
explicit. -/

/-- A photo resolution variant as seen by `extractFileInfo`: its `className`,
its `size` field (a JavaScript number, absent on progressive variants) and its
`sizes` field (the progressive byte-size list, absent on plain variants). -/
structure PhotoVariant where
  className : String
  size : Option Nat
  sizes : Option (List Nat)
deriving DecidableEq

/-- A message's media payload: a document (whose `size` field is a big-integer
object when present, so its truthiness coincides with presence), a photo with
its resolution variants, or any other payload kind. -/
inductive MediaModel where
  | document (size : Option Nat)
  | photo (sizes : List PhotoVariant)
  | other
deriving DecidableEq

/-- A message as consumed by `downloadMessageMedia`. -/
structure MessageModel where
  id : Nat
  media : Option MediaModel
deriving DecidableEq

/-- `downloadMessageMedia` handles only documents and photos
(`hasDocument`/`hasPhoto`); every other payload returns `false` before any
transfer starts. -/
def mediaSupported : MediaModel → Bool
  | .document _ => true
  | .photo _ => true
  | .other => false

/-- The media path as passed to `downloadMessageMedia`: `none` models a
missing (`null`/`undefined`) path — which `path.basename` rejects with a
TypeError — and `some p` a string path (`path.basename` accepts any
string). -/
def strFalsy : Option String → Bool
  | none => true
  | some p => p == ""

/-- The TypeError raised by `const downloadId = message.id` (line 36 of
`src/unnamed/part_002`, before the `try` block) when the message is `null` or
`undefined`. -/
def messageIdTypeError : TgError :=
  ⟨"Cannot read properties of undefined", 0, none⟩

/-- The TypeError raised by `const filename = path.basename(mediaPath)`
(line 37 of `src/unnamed/part_002`, before the `try` block) when the media
path is not a string. -/
def basenameTypeError : TgError :=
  ⟨"The path argument must be of type string", 0, none⟩

/-- The `try` block of `downloadMessageMedia` at attempt index `rc`: the
guard clause `if (!client || !message || !mediaPath)`, the media checks, and
the awaited `resumableDownload` call, whose outcome at this attempt is
`errs rc` (`none` = resolved, `some e` = threw `e`).  Control reaches this
block only with a present message and a string media path (the two lines
before the `try` throw otherwise), so `!mediaPath` here can only fire on the
empty string (`strFalsy`). -/
def downloadTryBody (client : Bool) (message : Option MessageModel) (mediaPath : Option String)
    (errs : Nat → Option TgError) (rc : Nat) : Except TgError Bool :=
  if !client || message.isNone || strFalsy mediaPath then Except.ok false
  else
    match message with
    | none => Except.ok false
    | some m =>
      match m.media with
      | none => Except.ok false
      | some kind =>
        if !(mediaSupported kind) then Except.ok false
        else
          match errs rc with
          | none => Except.ok true
          | some e => Except.error e

/-- `downloadMessageMedia`: the two dereferences `message.id` and
`path.basename(mediaPath)` run before the `try` block, so a missing message
or a missing media path rejects the promise with the corresponding TypeError
— the `catch` never sees it.  Once inside the `try`/`catch`, a retryable
error below the attempt cap re-enters the whole function with
`retryCount + 1` and any other caught error resolves to `false`.  The fuel
argument makes the recursion structural; via `downloadMessageMedia` it is
`MAX_RETRIES - retryCount`, so the fuel-exhausted first equation is reached
exactly when `retryCount ≥ MAX_RETRIES`, where the source's retry guard fails
and the caught error also resolves to `false`. -/
def downloadMessageMediaAux (client : Bool) (message : Option MessageModel)
    (mediaPath : Option String) (errs : Nat → Option TgError) : Nat → Nat → Except TgError Bool
  | 0, rc =>
    if message.isNone then Except.error messageIdTypeError
    else if mediaPath.isNone then Except.error basenameTypeError
    else
      match downloadTryBody client message mediaPath errs rc with
      | Except.ok b => Except.ok b
      | Except.error _ => Except.ok false
  | gas + 1, rc =>
    if message.isNone then Except.error messageIdTypeError
    else if mediaPath.isNone then Except.error basenameTypeError
    else
      match downloadTryBody client message mediaPath errs rc with
      | Except.ok b => Except.ok b
      | Except.error e =>
        if isRetryable e && decide (rc < MAX_RETRIES) then
          downloadMessageMediaAux client message mediaPath errs gas (rc + 1)
        else Except.ok false

/-- The observable behaviour of `downloadMessageMedia(client, message,
mediaPath, progressManager, retryCount)`: an `Except.ok b` means the promise
resolves to the boolean `b`, an `Except.error e` means the promise rejects —
an exception propagates to the caller. -/
def downloadMessageMedia (client : Bool) (message : Option MessageModel)
    (mediaPath : Option String) (errs : Nat → Option TgError) (retryCount : Nat) :
    Except TgError Bool :=
  downloadMessageMediaAux client message mediaPath errs (MAX_RETRIES - retryCount) retryCount

/-! ## MediaLocator resolver (`extractFileInfo`, `resumable-download.js`
lines 56–108).

For a photo the source filters the variants whose `className` is `PhotoSize`
or `PhotoSizeProgressive`, sorts them by effective byte size with the
comparator `(a, b) => bSize - aSize` (JavaScript `Array.prototype.sort` is
stable, so equal sizes keep their first-seen order) and takes the first
element.  The effective size of a variant is
`a.size || (a.sizes ? Math.max(...a.sizes) : 0)`; `Math.max` of an empty
spread is minus infinity, modelled here as `none`, which the ordering places
below every finite size. -/

/-- `Math.max(...l)` over a list of byte counts; `none` is minus infinity
(empty list). -/
def jsMax : List Nat → Option Nat
  | [] => none
  | x :: xs =>
    match jsMax xs with
    | none => some x
    | some m => some (max x m)

/-- `a.size || (a.sizes ? Math.max(...a.sizes) : 0)`: a present, nonzero
`size` wins (a present `0` is falsy); otherwise the progressive `sizes` list
decides, and `0` stands in when that field is absent. -/
def effSize (v : PhotoVariant) : Option Nat :=
  match v.size with
  | some s =>
    if s != 0 then some s
    else
      match v.sizes with
      | some l => jsMax l
      | none => some 0
  | none =>
    match v.sizes with
    | some l => jsMax l
    | none => some 0

/-- The ordering on effective sizes used by the sort comparator, with `none`
(minus infinity) below every finite value. -/
def effLe (x y : Option Nat) : Bool :=
  match x, y with
  | none, _ => true
  | some _, none => false
  | some a, some b => a ≤ b

/-- The `className` filter applied before sorting. -/
def filterVariants (l : List PhotoVariant) : List PhotoVariant :=
  l.filter (fun s => s.className == "PhotoSize" || s.className == "PhotoSizeProgressive")

/-- Insertion into a descending, stability-preserving order: the inserted
variant goes in front of the first already-placed variant whose effective
size it matches or exceeds.  Any stable sort produces one and the same list,
so this models the source's stable `sort((a, b) => bSize - aSize)`. -/
def insertDesc (v : PhotoVariant) : List PhotoVariant → List PhotoVariant
  | [] => [v]
  | w :: ws =>
    if effLe (effSize w) (effSize v) then v :: w :: ws
    else w :: insertDesc v ws

/-- The stable descending sort of the variant list. -/
def sortDesc : List PhotoVariant → List PhotoVariant
  | [] => []
  | v :: vs => insertDesc v (sortDesc vs)

/-- `extractFileInfo`'s choice of `largestSize`: head of the stable
descending sort of the filtered variants (`[0]` after `sort`), `none` when no
variant survives the filter (the source then returns `null`). -/
def photoPick (l : List PhotoVariant) : Option PhotoVariant :=
  (sortDesc (filterVariants l)).head?

/-- Modelled from the spec: the first variant (in first-seen order) whose
effective size is maximal among all the variants of the list. -/
def firstArgmax (l : List PhotoVariant) : Option PhotoVariant :=
  l.find? (fun v => l.all (fun w => effLe (effSize w) (effSize v)))

/-- The `fileSize` field of the locator returned by `extractFileInfo`:
`none` when the resolver returns `null` (no media it can use), `some fs`
when it returns a locator whose size field is `fs`.  For a document,
`doc.size ? bigInt(doc.size.toString()) : null`; for a photo,
`fileSize ? bigInt(fileSize) : null` applied to the selected variant's
effective size, which is a JavaScript number, so an effective size of `0`
yields `null`.  (A selected variant with minus-infinity effective size would
make the source throw inside `bigInt`; the Telegram API produces no such
variant list and it is modelled as an absent size.) -/
def extractFileInfoSize : MediaModel → Option (Option Nat)
  | .document size =>
    some (match size with
      | some s => some s
      | none => none)
  | .photo variants =>
    match photoPick variants with
    | none => none
    | some v =>
      some (match effSize v with
        | some s => if s != 0 then some s else none
        | none => none)
  | .other => none

/-! ## Resume cursor store (`getLastSelection` / `updateLastSelection`,
`src/utils/file-helper.js`, and `DownloadChannel.getMessageOffset`).

A scope's tracking file holds one JSON object, modelled as a partial map from
key to value.  Reading a missing or corrupt file throws inside
`readFileSync`/`JSON.parse` and `getLastSelection` catches it and returns the
empty object; a write merges the patch over whatever was read
(`{ ...getLastSelection(...), ...object }`). -/

def SelObj : Type := String → Option Nat

/-- The empty JSON object. -/
def emptySelection : SelObj := fun _ => none

/-- JavaScript spread merge `{ ...base, ...patch }`: keys of the patch win,
everything else keeps the value of the base object. -/
def mergeSelection (base patch : SelObj) : SelObj := fun k =>
  match patch k with
  | some v => some v
  | none => base k

/-- `getLastSelection`: the parsed tracking file, or `{}` when reading or
parsing failed (`file = none` models both a missing and a corrupt file). -/
def getLastSelection (file : Option SelObj) : SelObj :=
  match file with
  | some obj => obj
  | none => emptySelection

/-- `updateLastSelection`: read-merge-write of the scope's object. -/
def updateLastSelection (file : Option SelObj) (patch : SelObj) : Option SelObj :=
  some (mergeSelection (getLastSelection file) patch)

/-- `DownloadChannel.getMessageOffset`: `lastSelection.messageOffsetId || 0`. -/
def getMessageOffset (file : Option SelObj) : Nat :=
  match getLastSelection file "messageOffsetId" with
  | some v => v
  | none => 0

/-! ## Progress aggregator (`ProgressManager`, `src/unnamed/part_000`).

`bars` is the `downloadId -> { bar, totalBytes, filename }` map; the bar
itself is rendered state `(value, total)` that the multi-bar container keeps
displaying after the entry is dropped (`clearOnComplete: false`), modelled by
the separate `display` map, which `completeDownload` never erases.
`totalBytes = 0` models both a zero and an absent total (both falsy). -/

structure BarView where
  value : Nat
  total : Nat
deriving DecidableEq

structure PMEntry where
  filename : String
  totalBytes : Nat
  barValue : Nat
  barTotal : Nat
deriving DecidableEq

structure PMState where
  bars : Nat → Option PMEntry
  display : Nat → Option BarView

/-- A map with no registered download and nothing rendered. -/
def emptyPM : PMState := ⟨fun _ => none, fun _ => none⟩

/-- Update one key of a map. -/
def mapSet (m : Nat → Option α) (id : Nat) (v : α) : Nat → Option α :=
  fun k => if k == id then some v else m k

/-- `Map.delete`. -/
def mapDel (m : Nat → Option α) (id : Nat) : Nat → Option α :=
  fun k => if k == id then none else m k

/-- `ProgressManager.startDownload`: create a bar with total
`totalBytes || 100` and value `0`, and register the entry. -/
def startDownload (s : PMState) (id : Nat) (filename : String) (totalBytes : Nat) : PMState :=
  let barTotal := if totalBytes != 0 then totalBytes else 100
  { bars := mapSet s.bars id ⟨filename, totalBytes, 0, barTotal⟩,
    display := mapSet s.display id ⟨0, barTotal⟩ }

/-- `ProgressManager.updateProgress`: unknown ids are a no-op; when the total
becomes known (`totalBytes && !entry.totalBytes`) the entry and the bar are
retargeted; the bar value is set to the downloaded byte count. -/
def updateProgress (s : PMState) (id : Nat) (downloadedBytes totalBytes : Nat) : PMState :=
  match s.bars id with
  | none => s
  | some e =>
    let retarget := totalBytes != 0 && e.totalBytes == 0
    let newTotalBytes := if retarget then totalBytes else e.totalBytes
    let newBarTotal := if retarget then totalBytes else e.barTotal
    { bars := mapSet s.bars id ⟨e.filename, newTotalBytes, downloadedBytes, newBarTotal⟩,
      display := mapSet s.display id ⟨downloadedBytes, newBarTotal⟩ }

/-- `ProgressManager.completeDownload`: unknown ids are a no-op; on success
with a known total the bar is first snapped to the total
(`entry.bar.update(entry.totalBytes, ...)`); in every known-id case the entry
is then dropped from the map, while the rendered bar stays. -/
def completeDownload (s : PMState) (id : Nat) (success : Bool) : PMState :=
  match s.bars id with
  | none => s
  | some e =>
    if success && e.totalBytes != 0 then
      { bars := mapDel s.bars id,
        display := mapSet s.display id ⟨e.totalBytes, e.barTotal⟩ }
    else
      { bars := mapDel s.bars id, display := s.display }

/-- `ProgressManager.failDownload`. -/
def failDownload (s : PMState) (id : Nat) : PMState :=
  completeDownload s id false

/-- Well-formedness maintained by the three operations: a registered entry
with a known total has its bar targeted at that total. -/
def wfPM (s : PMState) : Prop :=
  ∀ id e, s.bars id = some e → e.totalBytes ≠ 0 → e.barTotal = e.totalBytes

/-! ## Helper lemmas about the chunking and the transfer loop. -/

theorem chunkListAux_flatten {C : Nat} (hC : 0 < C) :
    ∀ (fuel : Nat) (l : List α), l.length ≤ fuel → (chunkListAux C fuel l).flatten = l := by
  intro fuel
  induction fuel with
  | zero =>
    intro l hl
    cases l with
    | nil => rfl
    | cons a t => simp at hl
  | succ n ih =>
    intro l hl
    cases l with
    | nil => rfl
    | cons a t =>
      have hlen : ((a :: t).drop C).length ≤ n := by
        have h1 : ((a :: t).drop C).length = (a :: t).length - C := List.length_drop C (a :: t)
        have h2 : (a :: t).length = t.length + 1 := by simp
        simp only [List.length_cons] at hl
        omega
      simp only [chunkListAux, List.flatten_cons, ih _ hlen, List.take_append_drop]

theorem chunkList_flatten {C : Nat} (hC : 0 < C) (l : List α) :
    (chunkList C l).flatten = l :=
  chunkListAux_flatten hC l.length l le_rfl

theorem chunkListAux_mem_length {C : Nat} :
    ∀ {fuel : Nat} {l b : List α}, b ∈ chunkListAux C fuel l → b.length ≤ C := by
  intro fuel
  induction fuel with
  | zero =>
    intro l b hb
    cases l <;> simp [chunkListAux] at hb
  | succ n ih =>
    intro l b hb
    cases l with
    | nil => simp [chunkListAux] at hb
    | cons a t =>
      simp only [chunkListAux, List.mem_cons] at hb
      rcases hb with hb | hb
      · subst hb
        simp
      · exact ih hb

theorem chunkList_mem_length {C : Nat} {l b : List α} (hb : b ∈ chunkList C l) :
    b.length ≤ C :=
  chunkListAux_mem_length hb

theorem transferLoop_ok (p : List Nat) (cs : List (List Nat)) :
    transferLoop p (cs.map Option.some) = Except.ok (p ++ cs.flatten) := by
  induction cs generalizing p with
  | nil => simp [transferLoop]
  | cons c rest ih =>
    simp [transferLoop, ih, List.append_assoc]

theorem transferLoop_error (p : List Nat) (cs : List (List Nat)) (rest : List (Option (List Nat))) :
    transferLoop p (cs.map Option.some ++ Option.none :: rest)
      = Except.error (p ++ cs.flatten) := by
  induction cs generalizing p with
  | nil => simp [transferLoop]
  | cons c crest ih =>
    simp [transferLoop, ih, List.append_assoc]

/-! ## C4 — the corruption guard. -/

/-- C4: for every transfer whose total size is known, an attempt that finds a
partial file at least as long as the total deletes it and resets the resume
offset to `0`; otherwise (shorter partial file, or unknown total) the partial
file is kept and the offset equals its length. -/
theorem c4_corruption_guard :
    (∀ total existing : Nat, total ≤ existing → resumeSetup (some total) existing = (0, true))
    ∧ (∀ total existing : Nat, existing < total → resumeSetup (some total) existing = (existing, false))
    ∧ (∀ existing : Nat, resumeSetup none existing = (existing, false)) := by
  refine ⟨fun total existing h => ?_, fun total existing h => ?_, fun existing => rfl⟩
  · simp [resumeSetup, h]
  · simp only [resumeSetup, ge_iff_le]
    rw [if_neg (by omega)]

/-- Witness for C4 at a concrete input: a 5-byte partial file against a
3-byte total is discarded and the offset reset to `0`. -/
theorem c4_corruption_guard_witness : resumeSetup (some 3) 5 = (0, true) :=
  c4_corruption_guard.1 3 5 (by decide)

/-! ## C2 — interrupted-and-resumed transfers produce identical bytes. -/

/-- C2: for every object of known total size, chunk size `C > 0` and
interruption point `k < T`: re-invoking the transfer on the partial file
holding the first `k` bytes resumes at offset `k`, appends the remaining
chunks and renames to the destination, producing exactly the bytes an
uninterrupted transfer produces. -/
theorem c2_resume_identical (fileBytes : List Nat) (C k : Nat)
    (hC : 0 < C) (hk : k < fileBytes.length) :
    resumableDownload fileBytes (some fileBytes.length) (fileBytes.take k) C
        = Except.ok fileBytes
    ∧ resumableDownload fileBytes (some fileBytes.length) [] C
        = Except.ok fileBytes := by
  constructor
  · have hlen : (fileBytes.take k).length = k := by
      simp [List.length_take]
      omega
    have hguard : resumeSetup (some fileBytes.length) (fileBytes.take k).length
        = ((fileBytes.take k).length, false) := by
      rw [hlen]
      simp [resumeSetup]
      omega
    simp only [resumableDownload, hguard, if_neg Bool.false_ne_true]
    rw [transferLoop_ok, chunkList_flatten hC, hlen, List.take_append_drop]
  · have hpos : 0 < fileBytes.length := Nat.lt_of_le_of_lt (Nat.zero_le k) hk
    have hguard : resumeSetup (some fileBytes.length) ([] : List Nat).length = (0, false) := by
      simp only [List.length_nil, resumeSetup, ge_iff_le]
      rw [if_neg (by omega)]
    simp only [resumableDownload, hguard, if_neg Bool.false_ne_true]
    rw [transferLoop_ok, chunkList_flatten hC]
    simp

/-- Witness for C2 at a concrete input: a 4-byte object with chunk size 2,
interrupted after 3 bytes, resumes to the same final file as an
uninterrupted run. -/
theorem c2_resume_identical_witness :
    resumableDownload [1, 2, 3, 4] (some 4) ([1, 2, 3, 4].take 3) 2 = Except.ok [1, 2, 3, 4]
    ∧ resumableDownload [1, 2, 3, 4] (some 4) [] 2 = Except.ok [1, 2, 3, 4] :=
  c2_resume_identical [1, 2, 3, 4] 2 3 (by decide) (by decide)

/-! ## C5 — transport errors leave the partial file as flushed and propagate. -/

/-- C5: whatever bytes the partial file held when the transfer attempt began
and however many chunks were flushed before the transport error, the transfer
ends with exactly those flushed bytes on disk — nothing is truncated or
deleted — and the error is propagated to the caller instead of being retried
or swallowed inside the method. -/
theorem c5_error_preserves_part_file (partBytes : List Nat) (written : List (List Nat))
    (rest : List (Option (List Nat))) :
    transferLoop partBytes (written.map Option.some ++ Option.none :: rest)
      = Except.error (partBytes ++ written.flatten) :=
  transferLoop_error partBytes written rest

/-! ## Helper lemmas about the batch loop. -/

theorem runBatches_stop (succ : Nat → Bool) :
    ∀ (bs : List (List Nat)) (cursor : Option Nat) (k : Nat) (hk : k < bs.length),
      (∀ b ∈ bs.take k, b.all succ = true) →
      (bs.get ⟨k, hk⟩).all succ = false →
      runBatches succ cursor bs
        = ((bs.take k).foldl (fun _ b => some (b.getLastD 0)) cursor, k + 1) := by
  intro bs
  induction bs with
  | nil =>
    intro cursor k hk
    simp at hk
  | cons b rest ih =>
    intro cursor k hk hpre hfail
    cases k with
    | zero =>
      simp only [List.get] at hfail
      simp [runBatches, hfail]
    | succ k =>
      have hb : b.all succ = true := hpre b (by simp [List.take_succ_cons])
      have hk2 : k < rest.length := by
        simpa using hk
      have hpre2 : ∀ x ∈ rest.take k, x.all succ = true := by
        intro x hx
        exact hpre x (by simp [List.take_succ_cons, hx])
      have hfail2 : (rest.get ⟨k, hk2⟩).all succ = false := by
        simpa using hfail
      simp only [runBatches, hb, if_true]
      rw [ih (some (b.getLastD 0)) k hk2 hpre2 hfail2]
      simp [List.take_succ_cons]

theorem runBatches_all (succ : Nat → Bool) :
    ∀ (bs : List (List Nat)) (cursor : Option Nat),
      (∀ b ∈ bs, b.all succ = true) →
      runBatches succ cursor bs
        = (bs.foldl (fun _ b => some (b.getLastD 0)) cursor, bs.length) := by
  intro bs
  induction bs with
  | nil =>
    intro cursor h
    rfl
  | cons b rest ih =>
    intro cursor h
    have hb : b.all succ = true := h b (by simp)
    simp only [runBatches, hb, if_true]
    rw [ih (some (b.getLastD 0)) (fun x hx => h x (by simp [hx]))]
    simp

/-! ## C1 — cursor advancement is batch-atomic. -/

/-- C1: over the batches of one enumeration page, the persisted cursor is the
fold of the fully successful prefix of batches, each advance being to the id
of the oldest (last) message of a batch in which every job succeeded.  If the
batch at position `k` contains a failed job while every earlier batch fully
succeeded, the page stops after submitting exactly `k + 1` batches and the
cursor never moves past the last fully successful batch; if every batch
succeeds, every batch advances the cursor and all batches are submitted. -/
theorem c1_cursor_batch_atomicity :
    (∀ (succ : Nat → Bool) (jobs : List Nat) (cursor : Option Nat) (k : Nat)
        (hk : k < (chunkList MAX_PARALLEL_DOWNLOAD jobs).length),
        (∀ b ∈ (chunkList MAX_PARALLEL_DOWNLOAD jobs).take k, b.all succ = true) →
        ((chunkList MAX_PARALLEL_DOWNLOAD jobs).get ⟨k, hk⟩).all succ = false →
        downloadChannelPage succ jobs cursor
          = (((chunkList MAX_PARALLEL_DOWNLOAD jobs).take k).foldl
              (fun _ b => some (b.getLastD 0)) cursor, k + 1))
    ∧ (∀ (succ : Nat → Bool) (jobs : List Nat) (cursor : Option Nat),
        (∀ b ∈ chunkList MAX_PARALLEL_DOWNLOAD jobs, b.all succ = true) →
        downloadChannelPage succ jobs cursor
          = ((chunkList MAX_PARALLEL_DOWNLOAD jobs).foldl
              (fun _ b => some (b.getLastD 0)) cursor,
             (chunkList MAX_PARALLEL_DOWNLOAD jobs).length)) := by
  constructor
  · intro succ jobs cursor k hk hpre hfail
    exact runBatches_stop succ _ cursor k hk hpre hfail
  · intro succ jobs cursor h
    exact runBatches_all succ _ cursor h

/-- Witness for C1 at the spec's concrete scenario: page ids
`[103, 102, 101]` (newest first) with job `102` failing exhaust one batch and
leave the persisted cursor untouched (`none`), never advancing it to any id of
the failed batch. -/
theorem c1_cursor_batch_atomicity_witness :
    downloadChannelPage (fun n => decide (n ≠ 102)) [103, 102, 101] none = (none, 1) := by
  have h := c1_cursor_batch_atomicity.1 (fun n => decide (n ≠ 102)) [103, 102, 101] none 0
    (by decide) (by decide) (by decide)
  simpa using h

/-! ## Helper lemmas about the retry recursion. -/

theorem runAttemptsFrom_retry_step (errs : Nat → Option TgError) (rc : Nat) (e : TgError)
    (he : errs rc = some e) (hr : isRetryable e = true) (hrc : rc < MAX_RETRIES) :
    runAttemptsFrom errs rc
      = ((runAttemptsFrom errs (rc + 1)).1,
         computeWaitTime e rc :: (runAttemptsFrom errs (rc + 1)).2) := by
  have hgas : MAX_RETRIES - rc = (MAX_RETRIES - (rc + 1)) + 1 := by omega
  have hd : decide (rc < MAX_RETRIES) = true := decide_eq_true hrc
  rw [runAttemptsFrom, runAttemptsFrom, hgas]
  simp only [runAttemptsAux, he, hr, hd, Bool.and_self, if_true]

theorem runAttemptsAux_length_le (errs : Nat → Option TgError) :
    ∀ (gas rc : Nat), (runAttemptsAux errs gas rc).2.length ≤ gas := by
  intro gas
  induction gas with
  | zero =>
    intro rc
    simp only [runAttemptsAux]
    cases errs rc <;> simp
  | succ n ih =>
    intro rc
    simp only [runAttemptsAux]
    cases errs rc with
    | none => simp
    | some e =>
      by_cases h : (isRetryable e && decide (rc < MAX_RETRIES)) = true
      · simp only [h, if_true, List.length_cons]
        exact Nat.succ_le_succ (ih (rc + 1))
      · simp only [Bool.not_eq_true] at h
        simp [h]

/-! ## C3 — the retry/backoff schedule. -/

/-- C3 (amended): a retryable transfer error at attempt index `rc` below the
cap waits `computeWaitTime e rc` and then re-invokes the same download at
`rc + 1`; with no wait hint the waits of a job that keeps failing retryably
are exactly `5, 15, 30, 60, 120` seconds for attempt indices `0..4`, after
which the job is surfaced as failed; an explicit nonzero hint of `h` seconds
waits `h + 1`; and no job ever performs more than `MAX_RETRIES = 5` waits. -/
theorem c3_retry_schedule :
    (∀ (errs : Nat → Option TgError) (rc : Nat) (e : TgError),
        errs rc = some e → isRetryable e = true → rc < MAX_RETRIES →
        runAttemptsFrom errs rc
          = ((runAttemptsFrom errs (rc + 1)).1,
             computeWaitTime e rc :: (runAttemptsFrom errs (rc + 1)).2))
    ∧ (∀ e : TgError, isRetryable e = true → e.seconds = none →
        runAttemptsFrom (fun _ => some e) 0 = (false, [5, 15, 30, 60, 120]))
    ∧ (∀ (e : TgError) (hint rc : Nat), e.seconds = some hint → hint ≠ 0 →
        computeWaitTime e rc = hint + 1)
    ∧ (∀ errs : Nat → Option TgError, (runAttemptsFrom errs 0).2.length ≤ MAX_RETRIES) := by
  refine ⟨runAttemptsFrom_retry_step, fun e hr hs => ?_, fun e hint rc hh hnz => ?_,
    fun errs => runAttemptsAux_length_le errs MAX_RETRIES 0⟩
  · have hw : ∀ rc, computeWaitTime e rc = RETRY_DELAYS.getD rc 0 := by
      intro rc
      simp [computeWaitTime, hs]
    have h5 : runAttemptsFrom (fun _ => some e) 5 = (false, []) := rfl
    rw [runAttemptsFrom_retry_step (fun _ => some e) 0 e rfl hr (by decide),
      runAttemptsFrom_retry_step (fun _ => some e) 1 e rfl hr (by decide),
      runAttemptsFrom_retry_step (fun _ => some e) 2 e rfl hr (by decide),
      runAttemptsFrom_retry_step (fun _ => some e) 3 e rfl hr (by decide),
      runAttemptsFrom_retry_step (fun _ => some e) 4 e rfl hr (by decide),
      h5, hw 0, hw 1, hw 2, hw 3, hw 4]
    decide
  · simp [computeWaitTime, hh, hnz]

/-- Counterexample to C3 as frozen: a retryable flood error that carries the
explicit wait hint `0` does not wait `0 + 1 = 1` second; the hint is falsy in
JavaScript, so the schedule delay of `5` seconds is used at attempt index
`0`. -/
theorem c3_retry_schedule_counterexample :
    runAttemptsFrom (fun _ => some ⟨"FLOOD_WAIT_0", 420, some 0⟩) 0
        = (false, [5, 15, 30, 60, 120])
    ∧ (5 : Nat) ≠ 0 + 1 := by
  exact ⟨by decide, by decide⟩

/-- Witness for C3 at a concrete input: a flood error with no hint produces
exactly the escalating schedule and a failed job. -/
theorem c3_retry_schedule_witness :
    runAttemptsFrom (fun _ => some ⟨"FLOOD", 420, none⟩) 0 = (false, [5, 15, 30, 60, 120]) :=
  c3_retry_schedule.2.1 ⟨"FLOOD", 420, none⟩ (by decide) rfl

/-! ## Helper lemmas about the activity trace. -/

theorem countP_start_windowTrace (b : List Nat) :
    (windowTrace b).countP isStartEv = b.length := by
  simp only [windowTrace, List.countP_append, List.countP_map]
  have h1 : b.countP (isStartEv ∘ Ev.start) = b.length := by
    simp [Function.comp, isStartEv, List.countP_true]
  have h2 : b.countP (isStartEv ∘ Ev.finish) = 0 := by
    simp [Function.comp, isStartEv]
  omega

theorem countP_finish_windowTrace (b : List Nat) :
    (windowTrace b).countP isFinishEv = b.length := by
  simp only [windowTrace, List.countP_append, List.countP_map]
  have h1 : b.countP (isFinishEv ∘ Ev.start) = 0 := by
    simp [Function.comp, isFinishEv]
  have h2 : b.countP (isFinishEv ∘ Ev.finish) = b.length := by
    simp [Function.comp, isFinishEv, List.countP_true]
  omega

theorem netActive_take_flatten {n : Nat} :
    ∀ (bs : List (List Nat)), (∀ b ∈ bs, b.length ≤ n) →
      ∀ k, netActive (((bs.map windowTrace).flatten).take k) ≤ n := by
  intro bs
  induction bs with
  | nil =>
    intro _ k
    simp [netActive]
  | cons b rest ih =>
    intro hlen k
    have hb : b.length ≤ n := hlen b (by simp)
    simp only [List.map_cons, List.flatten_cons]
    rw [List.take_append_eq_append_take]
    set x := (windowTrace b).take k with hx
    set y := ((rest.map windowTrace).flatten).take (k - (windowTrace b).length) with hy
    by_cases hk : k ≤ (windowTrace b).length
    · have hxle : x.countP isStartEv ≤ b.length := by
        calc x.countP isStartEv ≤ (windowTrace b).countP isStartEv :=
              (List.take_sublist k (windowTrace b)).countP_le isStartEv
          _ = b.length := countP_start_windowTrace b
      have : netActive (x ++ y) ≤ x.countP isStartEv + y.countP isStartEv := by
        simp only [netActive, List.countP_append]
        exact Nat.sub_le _ _
      have hyz : y.countP isStartEv ≤ ((rest.map windowTrace).flatten).countP isStartEv :=
        (List.take_sublist _ _).countP_le isStartEv
      -- in this case the second half is empty
      have hy0 : y = [] := by
        rw [hy]
        have : k - (windowTrace b).length = 0 := by omega
        simp [this]
      rw [hy0, List.append_nil]
      calc netActive x ≤ x.countP isStartEv := Nat.sub_le _ _
        _ ≤ b.length := hxle
        _ ≤ n := hb
    · have hxfull : x = windowTrace b := by
        rw [hx]
        exact List.take_of_length_le (by omega)
      have hrest : netActive y ≤ n := ih (fun c hc => hlen c (by simp [hc])) _
      simp only [netActive, List.countP_append, hxfull, countP_start_windowTrace,
        countP_finish_windowTrace]
      simp only [netActive] at hrest
      omega

/-! ## C6 — at most `maxConcurrency` transfers are ever simultaneously active. -/

/-- C6: at every sampled instant of a page's execution at most
`MAX_PARALLEL_DOWNLOAD = 3` jobs are in the `Active` state, and in the
spec's concrete scenario — a page of 7 downloadable jobs that all succeed —
the number of jobs ever simultaneously active is exactly `3`: the peak over
all sampled instants equals `3`. -/
theorem c6_three_simultaneous_active :
    (∀ (jobs : List Nat) (k : Nat),
        netActive ((schedTrace jobs).take k) ≤ MAX_PARALLEL_DOWNLOAD)
    ∧ peakActive (schedTrace [107, 106, 105, 104, 103, 102, 101]) = 3 := by
  constructor
  · intro jobs k
    exact netActive_take_flatten (chunkList MAX_PARALLEL_DOWNLOAD jobs)
      (fun b hb => chunkList_mem_length hb) k
  · decide

/-! ## C8 — the cursor store writes are merges and reads degrade to the
default. -/

/-- C8: writing a patch through `updateLastSelection` leaves every key not
present in the patch with the value it had before (a merge, not a
replacement), stores every key of the patch, and reading the message offset
of a scope whose tracking file is missing or corrupt yields the default `0`
instead of raising. -/
theorem c8_merge_preserves_unrelated_keys :
    (∀ (file : Option SelObj) (patch : SelObj) (k : String),
        patch k = none →
        getLastSelection (updateLastSelection file patch) k = getLastSelection file k)
    ∧ (∀ (file : Option SelObj) (patch : SelObj) (k : String) (v : Nat),
        patch k = some v →
        getLastSelection (updateLastSelection file patch) k = some v)
    ∧ getMessageOffset none = 0 := by
  refine ⟨fun file patch k h => ?_, fun file patch k v h => ?_, rfl⟩
  · simp [updateLastSelection, getLastSelection, mergeSelection, h]
  · simp [updateLastSelection, getLastSelection, mergeSelection, h]

/-- Witness for C8 at a concrete input: merging the patch
`{ messageOffsetId: 42 }` into a scope that already stores `foo = 7` leaves
`foo` unchanged. -/
theorem c8_merge_preserves_unrelated_keys_witness :
    getLastSelection
        (updateLastSelection (some (fun k => if k == "foo" then some 7 else none))
          (fun k => if k == "messageOffsetId" then some 42 else none)) "foo"
      = getLastSelection (some (fun k => if k == "foo" then some 7 else none)) "foo" :=
  c8_merge_preserves_unrelated_keys.1 (some (fun k => if k == "foo" then some 7 else none))
    (fun k => if k == "messageOffsetId" then some 42 else none) "foo" (by decide)

/-! ## Helper lemma for C10. -/

theorem downloadMessageMediaAux_ok (client : Bool) (m : MessageModel) (p : String)
    (errs : Nat → Option TgError) :
    ∀ (gas rc : Nat), ∃ b, downloadMessageMediaAux client (some m) (some p) errs gas rc
      = Except.ok b := by
  intro gas
  induction gas with
  | zero =>
    intro rc
    cases h : downloadTryBody client (some m) (some p) errs rc with
    | ok b => exact ⟨b, by simp [downloadMessageMediaAux, h]⟩
    | error e => exact ⟨false, by simp [downloadMessageMediaAux, h]⟩
  | succ n ih =>
    intro rc
    cases h : downloadTryBody client (some m) (some p) errs rc with
    | ok b => exact ⟨b, by simp [downloadMessageMediaAux, h]⟩
    | error e =>
      by_cases hr : (isRetryable e && decide (rc < MAX_RETRIES)) = true
      · obtain ⟨b, hb⟩ := ih (rc + 1)
        exact ⟨b, by simp [downloadMessageMediaAux, h, hr, hb]⟩
      · simp only [Bool.not_eq_true] at hr
        exact ⟨false, by simp [downloadMessageMediaAux, h, hr]⟩

/-! ## C10 — what the job-level download resolves and what it rejects. -/

/-- C10 (amended): whenever the message and the media path are present, the
job-level download resolves to a boolean and never propagates an exception,
because the whole remaining body sits inside `try`/`catch`: it resolves
`false` on a missing client, an empty path string, absent media and
unsupported payloads — and for every transfer behaviour, including one that
throws on every attempt — and resolves `true` when the transfer succeeds.  A
missing (`null`/`undefined`) message or media path, however, is dereferenced
by `message.id` / `path.basename(mediaPath)` on the two lines before the
`try`, so the promise rejects with that TypeError instead of resolving. -/
theorem c10_exception_behaviour :
    (∀ (client : Bool) (m : MessageModel) (p : String) (errs : Nat → Option TgError) (rc : Nat),
        ∃ b, downloadMessageMedia client (some m) (some p) errs rc = Except.ok b)
    ∧ (∀ (client : Bool) (mediaPath : Option String) (errs : Nat → Option TgError) (rc : Nat),
        downloadMessageMedia client none mediaPath errs rc = Except.error messageIdTypeError)
    ∧ (∀ (client : Bool) (m : MessageModel) (errs : Nat → Option TgError) (rc : Nat),
        downloadMessageMedia client (some m) none errs rc = Except.error basenameTypeError)
    ∧ (∀ (m : MessageModel) (p : String) (errs : Nat → Option TgError) (rc : Nat),
        downloadMessageMedia false (some m) (some p) errs rc = Except.ok false)
    ∧ (∀ (client : Bool) (m : MessageModel) (errs : Nat → Option TgError) (rc : Nat),
        downloadMessageMedia client (some m) (some "") errs rc = Except.ok false)
    ∧ (∀ (i : Nat) (p : String) (errs : Nat → Option TgError) (rc : Nat), p ≠ "" →
        downloadMessageMedia true (some ⟨i, none⟩) (some p) errs rc = Except.ok false)
    ∧ (∀ (i : Nat) (p : String) (errs : Nat → Option TgError) (rc : Nat), p ≠ "" →
        downloadMessageMedia true (some ⟨i, some MediaModel.other⟩) (some p) errs rc
          = Except.ok false)
    ∧ (∀ (i : Nat) (m : MediaModel) (p : String) (errs : Nat → Option TgError) (rc : Nat),
        p ≠ "" → mediaSupported m = true → errs rc = none →
        downloadMessageMedia true (some ⟨i, some m⟩) (some p) errs rc = Except.ok true) := by
  refine ⟨fun client m p errs rc => downloadMessageMediaAux_ok client m p errs _ rc,
    fun client mediaPath errs rc => ?_, fun client m errs rc => ?_, fun m p errs rc => ?_,
    fun client m errs rc => ?_, fun i p errs rc hp => ?_, fun i p errs rc hp => ?_,
    fun i m p errs rc hp hm herr => ?_⟩
  · rw [downloadMessageMedia]
    cases MAX_RETRIES - rc <;> rfl
  · rw [downloadMessageMedia]
    cases MAX_RETRIES - rc <;> rfl
  · rw [downloadMessageMedia]
    cases MAX_RETRIES - rc <;> simp [downloadMessageMediaAux, downloadTryBody]
  · rw [downloadMessageMedia]
    cases MAX_RETRIES - rc <;> cases client <;>
      simp [downloadMessageMediaAux, downloadTryBody, strFalsy]
  · have hps : strFalsy (some p) = false := by simp [strFalsy, hp]
    rw [downloadMessageMedia]
    cases MAX_RETRIES - rc <;> simp [downloadMessageMediaAux, downloadTryBody, hps]
  · have hps : strFalsy (some p) = false := by simp [strFalsy, hp]
    rw [downloadMessageMedia]
    cases MAX_RETRIES - rc <;>
      simp [downloadMessageMediaAux, downloadTryBody, hps, mediaSupported]
  · have hps : strFalsy (some p) = false := by simp [strFalsy, hp]
    rw [downloadMessageMedia]
    cases MAX_RETRIES - rc <;>
      simp [downloadMessageMediaAux, downloadTryBody, hps, hm, herr]

/-- Counterexample to C10 as frozen: with a missing message, `message.id` on
the line before the `try` raises a TypeError and the promise rejects — the
operation does not resolve to any boolean; a missing media path likewise
rejects inside `path.basename(mediaPath)`. -/
theorem c10_exception_behaviour_counterexample :
    downloadMessageMedia true none (some "f.bin") (fun _ => none) 0
        = Except.error messageIdTypeError
    ∧ downloadMessageMedia true (some ⟨7, some (MediaModel.document (some 100))⟩) none
        (fun _ => none) 0 = Except.error basenameTypeError
    ∧ (Except.error messageIdTypeError : Except TgError Bool) ≠ Except.ok true
    ∧ (Except.error messageIdTypeError : Except TgError Bool) ≠ Except.ok false := by
  refine ⟨rfl, rfl, by simp, by simp⟩

/-- Witness for C10 at a concrete input: with message and path present, a
supported document whose transfer succeeds on the first attempt resolves to
`true`. -/
theorem c10_exception_behaviour_witness :
    downloadMessageMedia true (some ⟨7, some (MediaModel.document (some 100))⟩)
        (some "video.mp4") (fun _ => none) 0 = Except.ok true :=
  c10_exception_behaviour.2.2.2.2.2.2.2 7 (MediaModel.document (some 100)) "video.mp4"
    (fun _ => none) 0 (by decide) rfl rfl

/-! ## C9 — finishing a job in the progress aggregator. -/

/-- C9 (amended): for a registered job whose total size is known (nonzero),
`completeDownload id true` snaps the rendered bar to 100% — value equal to
total — and then removes the job's entry; `completeDownload id false` removes
the entry without touching the rendered bar; and `completeDownload` or
`updateProgress` on a job id that was never registered leaves the aggregator
completely unchanged. -/
theorem c9_finish_semantics :
    (∀ (s : PMState) (id : Nat) (e : PMEntry), wfPM s → s.bars id = some e →
        e.totalBytes ≠ 0 →
        (completeDownload s id true).display id = some ⟨e.totalBytes, e.totalBytes⟩
        ∧ (completeDownload s id true).bars id = none)
    ∧ (∀ (s : PMState) (id : Nat) (e : PMEntry), s.bars id = some e →
        (completeDownload s id false).display = s.display
        ∧ (completeDownload s id false).bars id = none)
    ∧ (∀ (s : PMState) (id : Nat) (success : Bool), s.bars id = none →
        completeDownload s id success = s)
    ∧ (∀ (s : PMState) (id : Nat) (downloaded total : Nat), s.bars id = none →
        updateProgress s id downloaded total = s) := by
  refine ⟨fun s id e hwf hb hne => ?_, fun s id e hb => ?_,
    fun s id success hb => ?_, fun s id downloaded total hb => ?_⟩
  · have htot : e.barTotal = e.totalBytes := hwf id e hb hne
    have hne2 : (e.totalBytes != 0) = true := by
      simpa using hne
    constructor
    · simp [completeDownload, hb, hne2, mapSet, htot]
    · simp [completeDownload, hb, hne2, mapDel]
  · constructor
    · simp [completeDownload, hb]
    · simp [completeDownload, hb, mapDel]
  · simp [completeDownload, hb]
  · simp [updateProgress, hb]

/-- Counterexample to C9 as frozen: a job registered with an unknown total
(`totalBytes = 0`) that reported 30 downloaded bytes is removed by
`completeDownload id true` with its rendered bar still at `30` of the default
`100` — the displayed progress is not snapped to 100% (downloaded is not
equal to total) before the entry is removed. -/
theorem c9_finish_semantics_counterexample :
    (completeDownload (updateProgress (startDownload emptyPM 1 "f.bin" 0) 1 30 0) 1
        true).display 1 = some ⟨30, 100⟩
    ∧ (30 : Nat) ≠ 100
    ∧ (completeDownload (updateProgress (startDownload emptyPM 1 "f.bin" 0) 1 30 0) 1
        true).bars 1 = none := by
  exact ⟨by decide, by decide, by decide⟩

/-- Witness for C9 at a concrete input: a job registered with total `500` and
30 bytes of reported progress is snapped to `500/500` and deregistered by a
successful finish. -/
theorem c9_finish_semantics_witness :
    (completeDownload (updateProgress (startDownload emptyPM 1 "f.bin" 500) 1 30 500) 1
        true).display 1 = some ⟨500, 500⟩
    ∧ (completeDownload (updateProgress (startDownload emptyPM 1 "f.bin" 500) 1 30 500) 1
        true).bars 1 = none := by
  have hbars : (updateProgress (startDownload emptyPM 1 "f.bin" 500) 1 30 500).bars
      = fun k => if k == 1 then some ⟨"f.bin", 500, 30, 500⟩ else none := by
    funext k
    by_cases hid : (k == 1) = true
    · simp [updateProgress, startDownload, emptyPM, mapSet, hid]
    · simp only [Bool.not_eq_true] at hid
      simp [updateProgress, startDownload, emptyPM, mapSet, hid]
  have hwf : wfPM (updateProgress (startDownload emptyPM 1 "f.bin" 500) 1 30 500) := by
    intro id e h hne
    rw [hbars] at h
    by_cases hid : (id == 1) = true
    · simp only [hid, if_true, Option.some.injEq] at h
      rw [← h]
    · simp only [Bool.not_eq_true] at hid
      simp [hid] at h
  exact c9_finish_semantics.1 (updateProgress (startDownload emptyPM 1 "f.bin" 500) 1 30 500)
    1 ⟨"f.bin", 500, 30, 500⟩ hwf (by decide) (by decide)

/-! ## Helper lemmas about the variant ordering and the stable sort. -/

theorem effLe_refl (x : Option Nat) : effLe x x = true := by
  cases x <;> simp [effLe]

theorem effLe_trans {x y z : Option Nat} (hxy : effLe x y = true) (hyz : effLe y z = true) :
    effLe x z = true := by
  cases x <;> cases y <;> cases z <;> (simp_all [effLe]; try omega)

theorem effLe_total (x y : Option Nat) : effLe x y = true ∨ effLe y x = true := by
  cases x <;> cases y <;> (simp [effLe]; try omega)

theorem insertDesc_ne_nil (v : PhotoVariant) (l : List PhotoVariant) :
    insertDesc v l ≠ [] := by
  cases l with
  | nil => simp [insertDesc]
  | cons w ws =>
    simp only [insertDesc]
    split <;> simp

theorem sortDesc_eq_nil {l : List PhotoVariant} (h : sortDesc l = []) : l = [] := by
  cases l with
  | nil => rfl
  | cons v vs => exact absurd h (insertDesc_ne_nil v (sortDesc vs))

theorem find?_congr_on {p q : α → Bool} :
    ∀ {l : List α}, (∀ x ∈ l, p x = q x) → l.find? p = l.find? q := by
  intro l
  induction l with
  | nil => intro _; rfl
  | cons a t ih =>
    intro h
    have ha : p a = q a := h a (by simp)
    by_cases hq : q a = true
    · rw [List.find?_cons_of_pos _ (ha.trans hq), List.find?_cons_of_pos _ hq]
    · simp only [Bool.not_eq_true] at hq
      rw [List.find?_cons_of_neg _ (by simp [ha, hq]), List.find?_cons_of_neg _ (by simp [hq])]
      exact ih (fun x hx => h x (by simp [hx]))

/-- Head of the stable descending sort is the first variant of the original
list attaining the maximal effective size. -/
theorem sortDesc_head_firstArgmax : ∀ l : List PhotoVariant,
    (sortDesc l).head? = firstArgmax l := by
  intro l
  induction l with
  | nil => rfl
  | cons v vs ih =>
    cases hs : sortDesc vs with
    | nil =>
      have hvs : vs = [] := sortDesc_eq_nil hs
      subst hvs
      simp [sortDesc, insertDesc, firstArgmax, List.find?, effLe_refl]
    | cons u us =>
      rw [hs] at ih
      simp only [List.head?] at ih
      have hu_mem : u ∈ vs := List.mem_of_find?_eq_some ih.symm
      have hu_max : ∀ w ∈ vs, effLe (effSize w) (effSize u) = true := by
        have := List.find?_some ih.symm
        simpa [List.all_eq_true] using this
      by_cases hcmp : effLe (effSize u) (effSize v) = true
      · have hvtop : ∀ w ∈ vs, effLe (effSize w) (effSize v) = true :=
          fun w hw => effLe_trans (hu_max w hw) hcmp
        have hpred : (fun x => (v :: vs).all fun w => effLe (effSize w) (effSize x)) v = true := by
          simp only [List.all_cons, Bool.and_eq_true, List.all_eq_true]
          exact ⟨effLe_refl _, hvtop⟩
        rw [sortDesc, hs]
        simp only [insertDesc, hcmp, if_true, List.head?]
        rw [firstArgmax]
        exact (List.find?_cons_of_pos
          (p := fun x => (v :: vs).all fun w => effLe (effSize w) (effSize x)) vs hpred).symm
      · have hvu : effLe (effSize v) (effSize u) = true := by
          rcases effLe_total (effSize u) (effSize v) with h | h
          · exact absurd h hcmp
          · exact h
        have hpredv : (fun x => (v :: vs).all fun w => effLe (effSize w) (effSize x)) v = false := by
          simp only [List.all_cons, Bool.and_eq_true, List.all_eq_true, Bool.not_eq_true]
          by_contra hcon
          simp only [Bool.not_eq_false, Bool.and_eq_true, List.all_eq_true] at hcon
          exact hcmp (hcon.2 u hu_mem)
        rw [sortDesc, hs]
        simp only [insertDesc, hcmp, Bool.false_eq_true, if_false, List.head?]
        rw [firstArgmax, List.find?_cons_of_neg
          (p := fun x => (v :: vs).all fun w => effLe (effSize w) (effSize x)) vs
          (by simp [hpredv])]
        have hcong : vs.find? (fun x => (v :: vs).all fun w => effLe (effSize w) (effSize x))
            = vs.find? (fun x => vs.all fun w => effLe (effSize w) (effSize x)) := by
          apply find?_congr_on
          intro x hx
          by_cases hq : (vs.all fun w => effLe (effSize w) (effSize x)) = true
          · have hvx : effLe (effSize v) (effSize x) = true :=
              effLe_trans hvu ((List.all_eq_true.mp hq) u hu_mem)
            simp [List.all_cons, hq, hvx]
          · simp only [Bool.not_eq_true] at hq
            simp [List.all_cons, hq]
        rw [hcong]
        exact ih

/-! ## C7 — the resolver picks the largest variant, ties first-seen. -/

/-- C7 (amended): for every photo payload the resolver selects, among the
variants surviving the `className` filter, the single variant with the
largest effective byte size, breaking ties by first-seen order (the source's
sort is stable), and the locator's size is that variant's effective size
whenever it is nonzero — an effective size of `0` is falsy and yields an
unknown (`null`) locator size instead.  For document payloads the locator's
size is the document's own declared size field, unchanged. -/
theorem c7_largest_variant_selection :
    (∀ l : List PhotoVariant, photoPick l = firstArgmax (filterVariants l))
    ∧ (∀ size : Option Nat, extractFileInfoSize (MediaModel.document size) = some size)
    ∧ (∀ (l : List PhotoVariant) (v : PhotoVariant) (s : Nat),
        photoPick l = some v → effSize v = some s → s ≠ 0 →
        extractFileInfoSize (MediaModel.photo l) = some (some s)) := by
  refine ⟨fun l => ?_, fun size => ?_, fun l v s hpick heff hs => ?_⟩
  · rw [photoPick, sortDesc_head_firstArgmax]
  · cases size <;> rfl
  · have hs2 : (s != 0) = true := by
      simpa using hs
    simp [extractFileInfoSize, hpick, heff, hs2]

/-- Counterexample to C7 as frozen: a photo whose only (and hence largest)
variant reports byte size `0` is selected, but the locator's size is `null`
(unknown), not that variant's size `0` — `fileSize ? bigInt(fileSize) : null`
is falsy at `0`. -/
theorem c7_largest_variant_selection_counterexample :
    photoPick [⟨"PhotoSize", some 0, none⟩] = some ⟨"PhotoSize", some 0, none⟩
    ∧ extractFileInfoSize (MediaModel.photo [⟨"PhotoSize", some 0, none⟩]) = some none
    ∧ some (none : Option Nat) ≠ some (some 0) := by
  exact ⟨by decide, by decide, by decide⟩

/-- Witness for C7 at a concrete input: among three variants (one filtered
out by `className`, two kept) the largest kept variant's size `200` becomes
the locator's size. -/
theorem c7_largest_variant_selection_witness :
    extractFileInfoSize (MediaModel.photo
        [⟨"PhotoSize", some 100, none⟩, ⟨"PhotoStrippedSize", some 900, none⟩,
         ⟨"PhotoSizeProgressive", none, some [50, 200]⟩])
      = some (some 200) :=
  c7_largest_variant_selection.2.2
    [⟨"PhotoSize", some 100, none⟩, ⟨"PhotoStrippedSize", some 900, none⟩,
     ⟨"PhotoSizeProgressive", none, some [50, 200]⟩]
    ⟨"PhotoSizeProgressive", none, some [50, 200]⟩ 200 (by decide) (by decide) (by decide)

end TCD
